import Mathlib

/-!
Verification development for the lume-epics PV serving bridge
(`lume_epics/epics_server.py`, `lume_epics/epics_pva_server.py`,
`lume_epics/client/controller.py`).

The Python data structures are shallowly embedded:
Python `dict` becomes an insertion-ordered association list (`Dict`),
`multiprocessing.Queue` becomes `MPQueue` (a list of items plus an optional
capacity; `multiprocessing.Queue()` with no argument is unbounded, modelled by
capacity `none`), and exceptions become explicit result constructors.
`Queue.put` without a timeout blocks until space is available, which on a
persistently full queue means it never returns: that is modelled by the
`blocksForever` result.  `Queue.put(timeout=t)` raises `Full` after the
timeout, modelled by `fullExc`.
-/

/-- Python `dict` with string keys, as an insertion-ordered association list.
Lookups find the first (unique) binding; `dictSet` replaces an existing
binding in place or appends a new one at the end, matching Python 3.7+
ordered-dict semantics. -/
abbrev Dict (α : Type) := List (String × α)

def dictGet {α : Type} : Dict α → String → Option α
  | [], _ => none
  | (k, v) :: rest, key => if k = key then some v else dictGet rest key

def dictSet {α : Type} : Dict α → String → α → Dict α
  | [], key, val => [(key, val)]
  | (k, v) :: rest, key, val =>
      if k = key then (k, val) :: rest else (k, v) :: dictSet rest key val

/-- Python `d.update(other)`: apply every binding of `other` to `d` in order. -/
def dictUpdate {α : Type} (d other : Dict α) : Dict α :=
  other.foldl (fun acc kv => dictSet acc kv.1 kv.2) d

def dictKeys {α : Type} (d : Dict α) : List String := d.map Prod.fst

def dictContains {α : Type} (d : Dict α) (k : String) : Bool :=
  (dictGet d k).isSome

/-- `multiprocessing.Queue`: FIFO list of items plus an optional capacity
(`none` = unbounded, the default for `multiprocessing.Queue()`). -/
structure MPQueue (α : Type) where
  capacity : Option Nat
  items : List α
deriving DecidableEq, Repr

def MPQueue.unbounded {α : Type} : MPQueue α := ⟨none, []⟩

def qFull {α : Type} (q : MPQueue α) : Bool :=
  match q.capacity with
  | none => false
  | some c => decide (c ≤ q.items.length)

/-- Result of a Python `Queue.put` call. -/
inductive PutResult (α : Type) where
  /-- The item was enqueued. -/
  | ok (q : α)
  /-- `queue.Full` was raised (timed put on a full queue). -/
  | fullExc
  /-- An untimed blocking put on a persistently full queue never returns. -/
  | blocksForever
deriving DecidableEq, Repr

/-- `Queue.put(item)` when `timed = false` (blocking, no timeout) and
`Queue.put(item, timeout=0.1)` when `timed = true`. -/
def mpPut {α : Type} (q : MPQueue α) (x : α) (timed : Bool) : PutResult (MPQueue α) :=
  if qFull q then (if timed then .fullExc else .blocksForever)
  else .ok ⟨q.capacity, q.items ++ [x]⟩

/-- `Queue.get_nowait()`: `none` models the `Empty` exception. -/
def qGetNowait {α : Type} (q : MPQueue α) : Option (α × MPQueue α) :=
  match q.items with
  | [] => none
  | x :: rest => some (x, ⟨q.capacity, rest⟩)

/-! ## Messages exchanged over the queues

The adapters and the dispatcher exchange plain Python dicts.  A message is
modelled as a record of the keys that any sender ever writes; a key a sender
does not write is `none`, and reading an absent key (`data["pvs"]` on a
message that only carries `"vars"`) is a `KeyError`. -/

/-- A lume-model variable as it appears in `epics_pva_server.py`.  Scalar
values are numbers (`num`), `noneV` is Python `None`. -/
inductive PVValue where
  | noneV
  | num (n : Int)
  | arr (xs : List Int)
  | strs (xs : List String)
deriving DecidableEq, Repr

structure PyVariable where
  name : String
  variable_type : String
  value : PVValue := .noneV
  value_type : String := "f"
  x_min : Int := 0
  x_max : Int := 0
  y_min : Int := 0
  y_max : Int := 0
  is_constant : Bool := false
deriving DecidableEq, Repr

/-- Message on the inbound (adapter → dispatcher) queue.  The PVA adapter
sends `protocol` and `vars` (`PVAServer.update_pv`); the dispatcher
(`Server.run_comm_thread`) reads `pvs` and `input_variables`. -/
structure InMsg where
  protocol : String
  pvs : Option (Dict (Option Int)) := none
  vars : Option (Dict PyVariable) := none
  input_variables : Option (List String) := none
deriving DecidableEq, Repr

/-- Message on an outbound (dispatcher → adapter) queue: either the mirror
of updated input variables to a sibling protocol, or the post-evaluation
output broadcast. -/
structure OutMsg where
  input_variables : Option (List (String × Option Int)) := none
  output_variables : Option (Dict (Option Int)) := none
deriving DecidableEq, Repr

/-! ## Dispatcher (`Server.run_comm_thread`, epics_server.py lines 204-255) -/

/-- State owned by the comm thread: `self.input_variables` (name to current
value, `none` = Python `None`), the `inputs_initialized` flag, the shared
`running_indicator`, and the per-protocol outbound queues. -/
structure CommState where
  store : Dict (Option Int)
  inputs_initialized : Bool
  running : Bool
  out_queues : Dict (MPQueue OutMsg)
deriving DecidableEq, Repr

inductive DispatchError where
  /-- `data["pvs"]` on a message with no `"pvs"` key. -/
  | keyErrorPvs
  /-- `self.input_variables[pv]` for an unknown variable. -/
  | keyErrorStore
  /-- `data["input_variables"]` on a message with no such key. -/
  | keyErrorInputVars
  /-- `model.evaluate` raised. -/
  | evalError
deriving DecidableEq, Repr

inductive StepOutcome where
  /-- Iteration completed; `running_indicator` was reset to false. -/
  | ok
  /-- The `except Full` handler ran; the iteration ended without executing
  `running_indicator.value = False`. -/
  | fullCaught
  /-- A blocking `put` on a persistently full queue: the iteration never
  finishes. -/
  | blocked
  /-- An exception not caught by the `except Empty` / `except Full` clauses
  propagated: the comm thread terminates. -/
  | crashed (e : DispatchError)
deriving DecidableEq, Repr

structure StepResult where
  state : CommState
  outcome : StepOutcome
  /-- Whether `model.evaluate` was invoked during this iteration. -/
  evaluated : Bool
deriving DecidableEq, Repr

/-- `for pv in data["pvs"]: self.input_variables[pv].value = data["pvs"][pv]`.
Assignments before a `KeyError` stick; the Bool is false when a lookup of an
unknown variable raised. -/
def applyPvs : Dict (Option Int) → List (String × Option Int) → Dict (Option Int) × Bool
  | store, [] => (store, true)
  | store, (pv, v) :: rest =>
      if dictContains store pv then applyPvs (dictSet store pv v) rest
      else (store, false)

/-- The `{"input_variables": [...]}` mirror message: the updated variables
that are also registered inputs on the receiving protocol. -/
def mirrorMessage (store : Dict (Option Int)) (pvs : Dict (Option Int))
    (ivs : List String) : OutMsg :=
  { input_variables :=
      some ((pvs.map Prod.fst).filterMap fun pv =>
        if pv ∈ ivs then some (pv, (dictGet store pv).getD none) else none) }

inductive MirrorFail where
  /-- Blocking `queue.put` (no timeout, line 222) on a persistently full
  sibling queue. -/
  | blockedPut
  /-- `data["input_variables"]` missing while building the mirror list. -/
  | keyErrorIV
deriving DecidableEq, Repr

/-- The sibling-sync loop (lines 218-230): for every outbound queue of a
protocol other than the sender, a blocking `put` of the mirror message.
`data["input_variables"]` is only read when the comprehension has at least
one element, i.e. when `pvs` is nonempty. -/
def mirrorPuts (qs : Dict (MPQueue OutMsg)) (proto : String)
    (pvs : Dict (Option Int)) (ivsOpt : Option (List String))
    (store : Dict (Option Int)) : Dict (MPQueue OutMsg) × Option MirrorFail :=
  match qs with
  | [] => ([], none)
  | (p, q) :: rest =>
      if p = proto then
        let r := mirrorPuts rest proto pvs ivsOpt store
        ((p, q) :: r.1, r.2)
      else
        match pvs, ivsOpt with
        | _ :: _, none => ((p, q) :: rest, some .keyErrorIV)
        | _, _ =>
            match mpPut q (mirrorMessage store pvs (ivsOpt.getD [])) false with
            | .ok q' =>
                let r := mirrorPuts rest proto pvs ivsOpt store
                ((p, q') :: r.1, r.2)
            | _ => ((p, q) :: rest, some .blockedPut)

inductive BroadcastFail where
  /-- `queue.Full` raised by the timed put (timeout=0.1, line 245). -/
  | fullRaised
  /-- A broadcast put blocked forever (cannot happen: the put is timed). -/
  | blockedPut
deriving DecidableEq, Repr

/-- The output broadcast (lines 244-245): a timed put of
`{"output_variables": outputs}` to every protocol's outbound queue.  A
`Full` aborts the loop; queues later in the iteration order are skipped. -/
def broadcastOutputs (qs : Dict (MPQueue OutMsg)) (outputs : Dict (Option Int)) :
    Dict (MPQueue OutMsg) × Option BroadcastFail :=
  match qs with
  | [] => ([], none)
  | (p, q) :: rest =>
      match mpPut q { output_variables := some outputs } true with
      | .ok q' =>
          let r := broadcastOutputs rest outputs
          ((p, q') :: r.1, r.2)
      | .fullExc => ((p, q) :: rest, some .fullRaised)
      | .blocksForever => ((p, q) :: rest, some .blockedPut)

/-- One iteration of the `while` loop of `Server.run_comm_thread`
(lines 207-253), entered after `in_queue.get` returned `msg`.  The model is
`model.evaluate`, abstracted as a function from the input store to either
outputs or a raised exception. -/
def Server.run_comm_step
    (model : Dict (Option Int) → Except Unit (Dict (Option Int)))
    (st : CommState) (msg : InMsg) : StepResult :=
  -- running_indicator.value = True
  let st := { st with running := true }
  match msg.pvs with
  | none => ⟨st, .crashed .keyErrorPvs, false⟩
  | some pvs =>
      match applyPvs st.store pvs with
      | (store', false) => ⟨{ st with store := store' }, .crashed .keyErrorStore, false⟩
      | (store', true) =>
          let st := { st with store := store' }
          match mirrorPuts st.out_queues msg.protocol pvs msg.input_variables store' with
          | (qs', some .blockedPut) => ⟨{ st with out_queues := qs' }, .blocked, false⟩
          | (qs', some .keyErrorIV) =>
              ⟨{ st with out_queues := qs' }, .crashed .keyErrorInputVars, false⟩
          | (qs', none) =>
              let st := { st with out_queues := qs' }
              -- if not any(var.value is None): inputs_initialized = 1
              let flag := if st.store.any (fun kv => kv.2.isNone) then
                  st.inputs_initialized else true
              let st := { st with inputs_initialized := flag }
              if flag then
                match model st.store with
                | .error _ => ⟨st, .crashed .evalError, true⟩
                | .ok outputs =>
                    match broadcastOutputs st.out_queues outputs with
                    | (qs2, none) =>
                        ⟨{ st with out_queues := qs2, running := false }, .ok, true⟩
                    | (qs2, some .fullRaised) =>
                        -- except Full: logger.error(...); running stays true
                        ⟨{ st with out_queues := qs2 }, .fullCaught, true⟩
                    | (qs2, some .blockedPut) =>
                        ⟨{ st with out_queues := qs2 }, .blocked, true⟩
              else
                ⟨{ st with running := false }, .ok, false⟩

/-- The dispatcher loop over a list of dequeued messages.  The loop
continues after `ok` and after a caught `Full`; an uncaught exception or a
never-returning blocking put ends processing.  Returns the final state and,
per processed message, whether `model.evaluate` was invoked. -/
def Server.run_comm_loop
    (model : Dict (Option Int) → Except Unit (Dict (Option Int))) :
    CommState → List InMsg → CommState × List Bool
  | st, [] => (st, [])
  | st, m :: rest =>
      let r := Server.run_comm_step model st m
      match r.outcome with
      | .ok =>
          let next := Server.run_comm_loop model r.state rest
          (next.1, r.evaluated :: next.2)
      | .fullCaught =>
          let next := Server.run_comm_loop model r.state rest
          (next.1, r.evaluated :: next.2)
      | _ => (r.state, [r.evaluated])

/-! ## Server construction (`Server.__init__`, epics_server.py lines 90-110) -/

/-- The protocol selection of `Server.__init__`: note the `elif` — when the
`"ca"` section is nonempty the `"pva"` section is never examined. -/
def Server.protocols (caCount pvaCount : Nat) : List String :=
  if caCount > 0 then ["ca"]
  else if pvaCount > 0 then ["pva"]
  else []

/-- `for protocol in self._protocols: out_queues[protocol] = Queue()` —
one unbounded queue per registered protocol. -/
def Server.buildOutQueues (protocols : List String) : Dict (MPQueue OutMsg) :=
  protocols.map fun p => (p, MPQueue.unbounded)

example : Server.protocols 2 3 = ["ca"] := by decide
example : Server.protocols 0 3 = ["pva"] := by decide

/-! ## PVA adapter (`PVAServer`, epics_pva_server.py) -/

/-- The value delivered to `update_pv` by a client put (`op.value()`): a
payload plus, for images, the geometry attributes carried in `.attrib`. -/
structure WireValue where
  value : PVValue
  x_min : Int := 0
  x_max : Int := 0
  y_min : Int := 0
  y_max : Int := 0
deriving DecidableEq, Repr

/-- A value computed by `update_pvs` for posting: scalar passthrough, image
array with four geometry attributes, typed array, or the whole structure of
a grouped parent PV (field names and field values in declaration order). -/
inductive NTValue where
  | scalar (v : PVValue)
  | image (data : PVValue) (x_min x_max y_min y_max : Int)
  | ntarr (data : PVValue)
  | structV (id : String) (fieldNames : List String) (fieldValues : List NTValue)

/-- Package a whole `_structures[parent]` dict as the posted structure
value (`Value(struct_type, self._structures[parent])`). -/
def NTValue.ofStruct (p : String) (s : Dict NTValue) : NTValue :=
  .structV p (dictKeys s) (s.map Prod.snd)

/-- A network-visible publish performed by `update_pvs`: either `pv.post` on
a locally served provider or `self._context.put` to an externally hosted
PV. -/
inductive PostEvent where
  | localPost (pvname : String) (v : NTValue)
  | remoteWrite (pvname : String) (v : NTValue)

inductive PvaStepError where
  /-- A Python `KeyError` on one of the adapter's dict lookups. -/
  | keyError
  /-- `UnboundLocalError`: the loop-local `value` read before assignment
  (first batch entry was a constant input). -/
  | unboundLocal
  /-- `AttributeError`: `.view` / `.attrib` on a `None` value. -/
  | attribError
  /-- A blocking `put` on a persistently full inbound queue. -/
  | blockedPut
deriving DecidableEq, Repr

/-- Message on the PVA adapter's outbound queue as consumed by
`PVAServer.run`: `data.get("input_variables", {})` and
`data.get("output_variables", {})`. -/
structure AdapterOutMsg where
  input_variables : Dict PyVariable := []
  output_variables : Dict PyVariable := []
deriving DecidableEq, Repr

/-- Process-local state of `PVAServer`. `providers` maps a pvname to `true`
for a locally served `SharedPV` and to `false` for the `None` placeholder of
an externally hosted output (`self._providers[pvname] = None`). -/
structure PVAState where
  input_variables : Dict PyVariable
  output_variables : Dict PyVariable
  cached_values : Dict PyVariable
  structures : Dict (Dict NTValue)
  structure_specs : Dict (List String)
  field_to_parent : Dict String
  pvname_to_varname : Dict String
  varname_to_pvname : Dict String
  providers : Dict Bool
  in_queue : MPQueue InMsg
  out_queue : MPQueue AdapterOutMsg
  running : Bool

/-- `PVAServer.update_pv` (lines 105-134): resolve pvname to varname, merge
the update into `_cached_values`, and if the running indicator is false,
flush the whole cache as one message and clear it.  For image variables the
geometry attributes are written onto the live input variable; the scalar
payload of `value` itself is never copied into the variable. -/
def PVAServer.update_pv (st : PVAState) (pvname : String) (v : WireValue) :
    Except PvaStepError PVAState :=
  match dictGet st.pvname_to_varname pvname with
  | none => .error .keyError
  | some varname =>
      match dictGet st.input_variables varname with
      | none => .error .keyError
      | some mv =>
          let mv1 := if mv.variable_type = "image" then
              { mv with x_min := v.x_min, x_max := v.x_max,
                        y_min := v.y_min, y_max := v.y_max }
            else mv
          let iv' := if mv.variable_type = "image" then
              dictSet st.input_variables varname mv1
            else st.input_variables
          -- model_variable = self._cached_values.get(varname, model_variable)
          let mv2 := (dictGet st.cached_values varname).getD mv1
          let cached := dictSet st.cached_values varname mv2
          let st := { st with input_variables := iv', cached_values := cached }
          if st.running then .ok st
          else
            match mpPut st.in_queue
                { protocol := "pva", vars := some st.cached_values } false with
            | .ok q => .ok { st with in_queue := q, cached_values := [] }
            | _ => .error .blockedPut

/-- The per-variable payload computation of `update_pvs` (lines 434-466).
Images and numeric arrays call `.view` on the value (an `AttributeError`
when the value is `None`); every other variable type, tables included, is
passed through as `variable.value`. -/
def PVAServer.payload (v : PyVariable) : Except PvaStepError NTValue :=
  if v.variable_type = "image" then
    match v.value with
    | .noneV => .error .attribError
    | val => .ok (.image val v.x_min v.x_max v.y_min v.y_max)
  else if v.variable_type = "array" then
    if v.value_type = "str" then .ok (.scalar v.value)
    else
      match v.value with
      | .noneV => .error .attribError
      | val => .ok (.ntarr val)
  else .ok (.scalar v.value)

/-- The body of `update_pvs`'s `for variable in variables.values()` loop
(lines 427-489), carrying the evolving `_structures` map, the emitted
publishes, and the loop-local `value` binding (`none` = not yet bound).

Faithful detail: the `if parent: ... post` block sits at loop-body level,
OUTSIDE the `else` of the constant-input check, so a constant input still
reaches the publish code with `value` left over from the previous iteration
(or unbound, when the constant comes first). -/
def PVAServer.update_pvs_go (st : PVAState) :
    List PyVariable → Dict (Dict NTValue) → Option NTValue →
    Dict (Dict NTValue) × List PostEvent × Option PvaStepError
  | [], structs, _ => (structs, [], none)
  | v :: rest, structs, carried =>
      let parent := dictGet st.field_to_parent v.name
      let carriedE : Except PvaStepError (Option NTValue) :=
        if dictContains st.input_variables v.name && v.is_constant then .ok carried
        else (PVAServer.payload v).map some
      match carriedE with
      | .error e => (structs, [], some e)
      | .ok carried' =>
          match parent with
          | some p =>
              -- self._structures[parent][variable.name] = value
              match carried' with
              | none => (structs, [], some .unboundLocal)
              | some val =>
                  match dictGet structs p with
                  | none => (structs, [], some .keyError)
                  | some s =>
                      let s' := dictSet s v.name val
                      let structs' := dictSet structs p s'
                      match dictGet st.structure_specs p with
                      | none => (structs', [], some .keyError)
                      | some _spec =>
                          let posted := NTValue.ofStruct p s'
                          match dictGet st.varname_to_pvname p with
                          | none => (structs', [], some .keyError)
                          | some pvname =>
                              match dictGet st.providers pvname with
                              | none => (structs', [], some .keyError)
                              | some isLocal =>
                                  let ev := if isLocal then
                                      PostEvent.localPost pvname posted
                                    else PostEvent.remoteWrite pvname posted
                                  let r :=
                                    PVAServer.update_pvs_go st rest structs' (some posted)
                                  (r.1, ev :: r.2.1, r.2.2)
          | none =>
              match dictGet st.varname_to_pvname v.name with
              | none => (structs, [], some .keyError)
              | some pvname =>
                  match dictGet st.providers pvname with
                  | none => (structs, [], some .keyError)
                  | some isLocal =>
                      match carried' with
                      | none => (structs, [], some .unboundLocal)
                      | some val =>
                          let ev := if isLocal then PostEvent.localPost pvname val
                                    else PostEvent.remoteWrite pvname val
                          let r := PVAServer.update_pvs_go st rest structs (some val)
                          (r.1, ev :: r.2.1, r.2.2)

structure UpdatePvsResult where
  state : PVAState
  events : List PostEvent
  err : Option PvaStepError

/-- `PVAServer.update_pvs` (lines 411-489): merge the input and output
batches (`variables.update(output_variables)`) and publish each variable. -/
def PVAServer.update_pvs (st : PVAState)
    (input_variables output_variables : Dict PyVariable) : UpdatePvsResult :=
  let merged := dictUpdate input_variables output_variables
  let r := PVAServer.update_pvs_go st (merged.map Prod.snd) st.structures none
  ⟨{ st with structures := r.1 }, r.2.1, r.2.2⟩

/-- The names of the variables appearing in an `update_pvs` batch (the
merged input/output set). -/
def batchNames (input_variables output_variables : Dict PyVariable) : List String :=
  (dictUpdate input_variables output_variables).map fun kv => kv.2.name

/-- One iteration of the `while` loop of `PVAServer.run` (lines 496-511).
On `Empty` the loop only sleeps; the cached-values flush check is inside the
`try`, after a successful `get_nowait`, and the flush does not clear the
cache. -/
def PVAServer.run_iteration (st : PVAState) :
    PVAState × List PostEvent × Option PvaStepError :=
  match qGetNowait st.out_queue with
  | none => (st, [], none)            -- except Empty: time.sleep(0.1)
  | some (data, q') =>
      let st := { st with out_queue := q' }
      let r := PVAServer.update_pvs st data.input_variables data.output_variables
      match r.err with
      | some e => (r.state, r.events, some e)
      | none =>
          let st := r.state
          if st.cached_values.length > 0 && !st.running then
            match mpPut st.in_queue
                { protocol := "pva", vars := some st.cached_values } false with
            | .ok q'' => ({ st with in_queue := q'' }, r.events, none)
            | _ => (st, r.events, some .blockedPut)
          else (st, r.events, none)

/-! ## Client controller (`client/controller.py`) -/

/-- A value delivered by a PV monitor to the client controller.  `num` is a
plain scalar, `flatArr` a flat Channel Access waveform, `imageArr` a
pvAccess NTNDArray with its geometry attributes. -/
inductive CtrlValue where
  | num (q : ℚ)
  | flatArr (xs : List ℚ)
  | imageArr (data : List (List ℚ)) (x_min x_max y_min y_max : ℚ)
deriving DecidableEq, Repr

inductive CtrlError where
  /-- `NameError`: `functools.partial` is referenced in `setup_pv_monitor`
  but `functools` is never imported in controller.py. -/
  | nameErrorFunctools
  /-- `TypeError`/`AttributeError`: arithmetic or attribute access on an
  unexpected value. -/
  | typeError
  /-- `UnboundLocalError`: `image` read without either protocol branch
  having assigned it. -/
  | unboundLocal
deriving DecidableEq, Repr

/-- Client `Controller` state: the protocol plus `pv_registry`, mapping a
pvname to the monitor's last delivered value (`none` until a value
arrives). -/
structure ControllerState where
  protocol : String
  pv_registry : Dict (Option CtrlValue)
deriving DecidableEq, Repr

/-- `Controller.__init__(protocol)`: empty registry. -/
def Controller.new (protocol : String) : ControllerState := ⟨protocol, []⟩

/-- `Controller.setup_pv_monitor` (lines 82-93).  For `"ca"` a `PV` object
with a callback is registered.  For `"pva"` the code evaluates
`functools.partial(...)`, but controller.py never imports `functools`, so
the call raises `NameError` before any registry entry is created. -/
def Controller.setup_pv_monitor (st : ControllerState) (pvname : String) :
    Except CtrlError ControllerState :=
  if dictContains st.pv_registry pvname then .ok st
  else if st.protocol = "ca" then
    .ok { st with pv_registry := dictSet st.pv_registry pvname none }
  else if st.protocol = "pva" then .error .nameErrorFunctools
  else .ok st

/-- `Controller.get` (lines 95-106): ensure a monitor exists, then return
the registry entry's value (or `None`). -/
def Controller.get (st : ControllerState) (pvname : String) :
    Except CtrlError (ControllerState × Option CtrlValue) := do
  let st ← Controller.setup_pv_monitor st pvname
  match dictGet st.pv_registry pvname with
  | some v => .ok (st, v)
  | none => .ok (st, none)

def DEFAULT_SCALAR_VALUE : ℚ := 0

/-- `Controller.get_value` (lines 109-121): the monitored value, or the
scalar default when no value has been delivered. -/
def Controller.get_value (st : ControllerState) (pvname : String) :
    Except CtrlError (ControllerState × CtrlValue) := do
  let r ← Controller.get st pvname
  match r.2 with
  | none => .ok (r.1, .num DEFAULT_SCALAR_VALUE)
  | some x => .ok (r.1, x)

/-- The bounding-box dict returned by `Controller.get_image`. -/
structure ImageData where
  image : List (List (List ℚ))
  x : List ℚ
  y : List ℚ
  dw : List ℚ
  dh : List ℚ
deriving DecidableEq, Repr

/-- `DEFAULT_IMAGE_DATA` (controller.py lines 15-21): a 50x50 zero array
with x = 50, y = 50, dw = 0.01, dh = 0.01 (each wrapped in a
one-element list). -/
def DEFAULT_IMAGE_DATA : ImageData :=
  ⟨[List.replicate 50 (List.replicate 50 0)], [50], [50], [1/100], [1/100]⟩

/-- `image.reshape(int(nx), int(ny))`: cut the flat array into rows of
`ny` entries (fuel-bounded helper). -/
def chunkRows : Nat → Nat → List ℚ → List (List ℚ)
  | 0, _, _ => []
  | Nat.succ fuel, n, xs =>
      if xs.isEmpty then [] else xs.take n :: chunkRows fuel n (xs.drop n)

def reshape2 (flat : List ℚ) (ny : Nat) : List (List ℚ) :=
  chunkRows flat.length ny flat

/-- Read a geometry helper PV as a number (`TypeError` when the monitor has
delivered nothing or a non-numeric value). -/
def Controller.getNum (st : ControllerState) (pvname : String) :
    Except CtrlError (ControllerState × ℚ) := do
  let r ← Controller.get st pvname
  match r.2 with
  | some (.num q) => .ok (r.1, q)
  | _ => .error .typeError

/-- `Controller.get_image` (lines 123-168).  Channel Access assembles the
image from `:ArrayData_RBV` and the geometry helper PVs; pvAccess reads the
NTNDArray attributes.  When no image value is available the fixed
`DEFAULT_IMAGE_DATA` payload is returned.  A protocol that is neither
`"ca"` nor `"pva"` reaches `if image is not None` with `image` unbound. -/
def Controller.get_image (st : ControllerState) (pvname : String) :
    Except CtrlError (ControllerState × ImageData) :=
  if st.protocol = "ca" then do
    let r ← Controller.get st (pvname ++ ":ArrayData_RBV")
    match r.2 with
    | none => .ok (r.1, DEFAULT_IMAGE_DATA)
    | some (.flatArr flat) => do
        let pvbase := (pvname.replace ":ArrayData_RBV" "")
        let r1 ← Controller.getNum r.1 (pvbase ++ ":ArraySizeX_RBV")
        let r2 ← Controller.getNum r1.1 (pvbase ++ ":ArraySizeY_RBV")
        let r3 ← Controller.getNum r2.1 (pvbase ++ ":MinX_RBV")
        let r4 ← Controller.getNum r3.1 (pvbase ++ ":MinY_RBV")
        let r5 ← Controller.getNum r4.1 (pvbase ++ ":MaxX_RBV")
        let r6 ← Controller.getNum r5.1 (pvbase ++ ":MaxY_RBV")
        let x := r3.2
        let y := r4.2
        let dw := r5.2 - x
        let dh := r6.2 - y
        let img := reshape2 flat r2.2.floor.toNat
        .ok (r6.1, ⟨[img], [x], [y], [dw], [dh]⟩)
    | some _ => .error .typeError
  else if st.protocol = "pva" then do
    let r ← Controller.get st pvname
    match r.2 with
    | none => .ok (r.1, DEFAULT_IMAGE_DATA)
    | some (.imageArr data xm xM ym yM) =>
        .ok (r.1, ⟨[data], [xm], [ym], [xM - xm], [yM - ym]⟩)
    | some _ => .error .typeError
  else .error .unboundLocal

/-! ## Concrete fixtures used by the claim theorems -/

/-- A model that always succeeds, echoing the input store. -/
def okModel : Dict (Option Int) → Except Unit (Dict (Option Int)) := fun s => .ok s

/-- A model that always raises. -/
def failModel : Dict (Option Int) → Except Unit (Dict (Option Int)) := fun _ => .error ()

/-- The `y = 2x` example model of the spec. -/
def doubler : Dict (Option Int) → Except Unit (Dict (Option Int)) := fun s =>
  match dictGet s "x" with
  | some (some n) => .ok [("y", some (2 * n))]
  | _ => .error ()

def xVar0 : PyVariable := { name := "x", variable_type := "scalar", value := .num 0 }

/-- PVA adapter serving one scalar input `x` at pvname `test:x`. -/
def pvaStC1 : PVAState :=
  { input_variables := [("x", xVar0)]
    output_variables := []
    cached_values := []
    structures := []
    structure_specs := []
    field_to_parent := []
    pvname_to_varname := [("test:x", "x")]
    varname_to_pvname := [("x", "test:x")]
    providers := [("test:x", true)]
    in_queue := MPQueue.unbounded
    out_queue := MPQueue.unbounded
    running := false }

/-- The message `update_pv` flushes for a write to `test:x`: key `"vars"`,
carrying the cached variable object. -/
def msgC1 : InMsg := { protocol := "pva", vars := some [("x", xVar0)] }

/-- Dispatcher store holding input `x` with its default value 0. -/
def commC1 : CommState :=
  { store := [("x", some 0)], inputs_initialized := false, running := false,
    out_queues := [("pva", MPQueue.unbounded)] }

/-- Claim C1.  One client write of `x = 3` through `PVAServer.update_pv`,
followed by the dispatcher processing the flushed message.  The written
value 3 is lost twice over: `update_pv` caches the variable object without
ever assigning the new value into it (the flushed message still carries
`x = 0`), and the dispatcher reads `data["pvs"]` while the adapter sent the
cache under key `"vars"`, so the comm thread dies with a `KeyError` and the
canonical store still holds 0, not the last written value 3. -/
theorem update_pv_write_lost_dispatch_crashes :
    PVAServer.update_pv pvaStC1 "test:x" { value := .num 3 } =
      .ok { pvaStC1 with in_queue := ⟨none, [msgC1]⟩ } ∧
    (msgC1.vars.getD []).map (fun kv => (kv.1, kv.2.value)) = [("x", .num 0)] ∧
    Server.run_comm_step okModel commC1 msgC1 =
      ⟨{ commC1 with running := true }, .crashed .keyErrorPvs, false⟩ ∧
    (Server.run_comm_step okModel commC1 msgC1).state.store = [("x", some 0)] :=
  ⟨rfl, rfl, rfl, rfl⟩

/-- Dispatcher state as `Server.__init__` builds it when BOTH the `"ca"`
and the `"pva"` sections of the EPICS config are nonempty: because of the
`elif`, only `"ca"` is registered and only one outbound queue exists. -/
def commC2 : CommState :=
  { store := [("x", some 0)], inputs_initialized := false, running := false,
    out_queues := Server.buildOutQueues (Server.protocols 1 1) }

def msgC2 : InMsg :=
  { protocol := "ca", pvs := some [("x", some 3)], input_variables := some ["x"] }

/-- Claim C2.  With both protocols configured (both config sections
nonempty), `Server.__init__`'s `elif` registers only `"ca"`: no `"pva"`
outbound queue is ever created.  Dispatching the write `x = 3` with the
`y = 2x` model does produce `y = 6`, but it is enqueued only on the single
`"ca"` queue — there is no second protocol queue for it to reach. -/
theorem both_protocols_elif_drops_pva :
    Server.protocols 1 1 = ["ca"] ∧
    dictContains (Server.buildOutQueues (Server.protocols 1 1)) "pva" = false ∧
    Server.run_comm_step doubler commC2 msgC2 =
      ⟨{ store := [("x", some 3)], inputs_initialized := true, running := false,
         out_queues := [("ca", ⟨none, [{ output_variables := some [("y", some 6)] }]⟩)] },
       .ok, true⟩ :=
  ⟨rfl, rfl, rfl⟩

/-- Dispatcher with a full (capacity-0) `"ca"` outbound queue. -/
def commC3 : CommState :=
  { store := [("x", some 1)], inputs_initialized := false, running := false,
    out_queues := [("ca", ⟨some 0, []⟩)] }

def msgC3 : InMsg :=
  { protocol := "ca", pvs := some [("x", some 2)], input_variables := some ["x"] }

/-- Claim C3.  When the output broadcast raises `Full`, control jumps to the
`except Full` handler and `running_indicator.value = False` is skipped: the
iteration ends with the shared running indicator still true, even though no
evaluation is in flight any more — and it is also set before the store
update and mirroring, not immediately before the evaluation call. -/
theorem running_indicator_stuck_after_full :
    Server.run_comm_step okModel commC3 msgC3 =
      ⟨{ store := [("x", some 2)], inputs_initialized := true, running := true,
         out_queues := [("ca", ⟨some 0, []⟩)] }, .fullCaught, true⟩ ∧
    (Server.run_comm_loop okModel commC3 [msgC3]).1.running = true :=
  ⟨rfl, rfl⟩

/-- Dispatcher with an unbounded `"ca"` queue, used with the raising model. -/
def commC4 : CommState :=
  { store := [("x", some 1)], inputs_initialized := false, running := false,
    out_queues := [("ca", MPQueue.unbounded)] }

/-- Claim C4.  `run_comm_thread` catches only `Empty` and `Full`; an
exception raised by `model.evaluate` propagates and terminates the comm
thread.  Processing two queued batches with a raising model handles only
the first one — the loop does not proceed to the next inbound batch (the
outbound queues are left untouched, so previously broadcast outputs do
remain visible). -/
theorem evaluate_error_kills_dispatcher :
    (Server.run_comm_step failModel commC4 msgC3).outcome = .crashed .evalError ∧
    (Server.run_comm_step failModel commC4 msgC3).state.out_queues = commC4.out_queues ∧
    (Server.run_comm_step failModel commC4 msgC3).state.running = true ∧
    (Server.run_comm_loop failModel commC4 [msgC3, msgC3]).2 = [true] :=
  ⟨rfl, rfl, rfl, rfl⟩

/-- Dispatcher whose sibling (`"ca"`) outbound queue is bounded and full
while a `"pva"` write arrives. -/
def commC5 : CommState :=
  { store := [("x", some 0)], inputs_initialized := false, running := false,
    out_queues :=
      [("ca", ⟨some 1, [{ output_variables := some [("y", some 1)] }]⟩),
       ("pva", MPQueue.unbounded)] }

def msgC5 : InMsg :=
  { protocol := "pva", pvs := some [("x", some 7)], input_variables := some ["x"] }

/-- Claim C5, counterexample.  The mirror enqueue of updated inputs to the
sibling protocol (line 222) is a blocking `put` with no timeout: on a full
sibling queue the dispatcher iteration never terminates — it is not dropped
in bounded time. -/
theorem mirror_enqueue_blocks_on_full_queue :
    (Server.run_comm_step okModel commC5 msgC5).outcome = .blocked :=
  rfl

def aVar : PyVariable := { name := "a", variable_type := "scalar", value := .num 5 }

def cVar : PyVariable :=
  { name := "c", variable_type := "scalar", value := .num 7, is_constant := true }

/-- PVA adapter serving two scalar inputs, `a` and the constant `c`. -/
def pvaStC8 : PVAState :=
  { input_variables := [("a", aVar), ("c", cVar)]
    output_variables := []
    cached_values := []
    structures := []
    structure_specs := []
    field_to_parent := []
    pvname_to_varname := [("pv:a", "a"), ("pv:c", "c")]
    varname_to_pvname := [("a", "pv:a"), ("c", "pv:c")]
    providers := [("pv:a", true), ("pv:c", true)]
    in_queue := MPQueue.unbounded
    out_queue := MPQueue.unbounded
    running := false }

/-- Claim C8.  The publish block of `update_pvs` is NOT inside the `else` of
the constant-input check: for a constant input only the payload computation
is skipped, and the loop still posts to the constant's PV using the `value`
left over from the previous iteration.  Batch `[a = 5, c]` posts the stale
payload 5 to `pv:c`; a batch starting with the constant dies with
`UnboundLocalError` instead of skipping it. -/
theorem constant_variable_still_posted :
    (PVAServer.update_pvs pvaStC8 [("a", aVar), ("c", cVar)] []).events =
      [.localPost "pv:a" (.scalar (.num 5)), .localPost "pv:c" (.scalar (.num 5))] ∧
    (PVAServer.update_pvs pvaStC8 [("c", cVar)] []).events = [] ∧
    (PVAServer.update_pvs pvaStC8 [("c", cVar)] []).err = some .unboundLocal :=
  ⟨rfl, rfl, rfl⟩

def pyVarX : PyVariable := { name := "x", variable_type := "scalar", value := .num 1 }

/-- PVA adapter with one unflushed cached update, running indicator false,
and an EMPTY outbound queue. -/
def pvaStC9 : PVAState :=
  { input_variables := [("x", pyVarX)]
    output_variables := []
    cached_values := [("x", pyVarX)]
    structures := []
    structure_specs := []
    field_to_parent := []
    pvname_to_varname := [("test:x", "x")]
    varname_to_pvname := [("x", "test:x")]
    providers := [("test:x", true)]
    in_queue := MPQueue.unbounded
    out_queue := MPQueue.unbounded
    running := false }

/-- The same adapter state with one (empty) batch waiting on the outbound
queue. -/
def pvaStC9b : PVAState := { pvaStC9 with out_queue := ⟨none, [{}]⟩ }

/-- Claim C9.  In `PVAServer.run` the cached-values check sits inside the
`try`, after `get_nowait()`: on an empty outbound queue the iteration goes
straight to the `except Empty` sleep and performs NO flush, even though an
unflushed cached update exists and the running indicator is false.  And
when a batch does arrive and the flush runs, `self._cached_values` is not
cleared afterwards — the cache still holds the flushed entry. -/
theorem run_loop_flush_unreachable_and_cache_not_cleared :
    PVAServer.run_iteration pvaStC9 = (pvaStC9, [], none) ∧
    (PVAServer.run_iteration pvaStC9).1.in_queue.items = [] ∧
    (PVAServer.run_iteration pvaStC9b).1.in_queue.items =
      [{ protocol := "pva", vars := some [("x", pyVarX)] }] ∧
    (PVAServer.run_iteration pvaStC9b).1.cached_values = [("x", pyVarX)] :=
  ⟨rfl, rfl, rfl, rfl⟩

/-- Claim C10.  For a `"ca"` controller the getters return the documented
defaults (`0`, `DEFAULT_IMAGE_DATA`) instead of `None` when no value has
been delivered.  But for a `"pva"` controller — the module docstring's own
example — the first getter call on any pvname raises `NameError`, because
`setup_pv_monitor` evaluates `functools.partial` and controller.py never
imports `functools`. -/
theorem controller_defaults_and_pva_name_error :
    Controller.get_value (Controller.new "ca") "x" =
      .ok (⟨"ca", [("x", none)]⟩, .num 0) ∧
    Controller.get_image (Controller.new "ca") "img" =
      .ok (⟨"ca", [("img:ArrayData_RBV", none)]⟩, DEFAULT_IMAGE_DATA) ∧
    Controller.get_value (Controller.new "pva") "x" = .error .nameErrorFunctools ∧
    Controller.get_image (Controller.new "pva") "img" = .error .nameErrorFunctools :=
  ⟨rfl, rfl, rfl, rfl⟩

/-! ## Dictionary lemmas -/

theorem dictGet_dictSet_self {α : Type} (d : Dict α) (k : String) (v : α) :
    dictGet (dictSet d k v) k = some v := by
  induction d with
  | nil => simp [dictSet, dictGet]
  | cons kv rest ih =>
      obtain ⟨k1, v1⟩ := kv
      by_cases h : k1 = k
      · subst h; simp [dictSet, dictGet]
      · simp [dictSet, dictGet, h, ih]

theorem dictGet_dictSet_ne {α : Type} (d : Dict α) (k k' : String) (v : α)
    (h : k' ≠ k) : dictGet (dictSet d k v) k' = dictGet d k' := by
  have h' : ¬ k = k' := fun hh => h hh.symm
  induction d with
  | nil => simp [dictSet, dictGet, h']
  | cons kv rest ih =>
      obtain ⟨k1, v1⟩ := kv
      by_cases h1 : k1 = k
      · subst h1
        rw [dictSet, if_pos rfl]
        rw [dictGet, if_neg h', dictGet, if_neg h']
      · rw [dictSet, if_neg h1, dictGet, dictGet]
        by_cases h2 : k1 = k'
        · rw [if_pos h2, if_pos h2]
        · rw [if_neg h2, if_neg h2, ih]

theorem dictContains_dictSet_of_contains {α : Type} (d : Dict α) (k : String)
    (v : α) (hc : dictContains d k = true) (k' : String) :
    dictContains (dictSet d k v) k' = dictContains d k' := by
  by_cases h : k' = k
  · subst h
    rw [hc]
    simp [dictContains, dictGet_dictSet_self]
  · simp [dictContains, dictGet_dictSet_ne d k k' v h]

theorem dictGet_mem {α : Type} (d : Dict α) (k : String) (v : α)
    (h : dictGet d k = some v) : (k, v) ∈ d := by
  induction d with
  | nil => simp [dictGet] at h
  | cons kv rest ih =>
      obtain ⟨k1, v1⟩ := kv
      rw [dictGet] at h
      by_cases h1 : k1 = k
      · subst h1
        rw [if_pos rfl] at h
        obtain rfl : v1 = v := by injection h
        simp
      · rw [if_neg h1] at h
        simp [ih h]

theorem mem_dictKeys_iff {α : Type} (d : Dict α) (k : String) :
    k ∈ dictKeys d ↔ dictContains d k = true := by
  induction d with
  | nil => simp [dictKeys, dictContains, dictGet]
  | cons kv rest ih =>
      obtain ⟨k1, v1⟩ := kv
      simp only [dictKeys, List.map_cons, List.mem_cons]
      by_cases h : k1 = k
      · subst h; simp [dictContains, dictGet]
      · simp only [dictContains, dictGet, if_neg h]
        simp only [dictKeys] at ih
        constructor
        · rintro (hk | hk)
          · exact absurd hk.symm h
          · simpa [dictContains] using ih.mp hk
        · intro hc
          exact Or.inr (ih.mpr (by simpa [dictContains] using hc))

theorem dictKeys_dictSet_of_contains {α : Type} (d : Dict α) (k : String)
    (v : α) (h : dictContains d k = true) :
    dictKeys (dictSet d k v) = dictKeys d := by
  induction d with
  | nil => simp [dictContains, dictGet] at h
  | cons kv rest ih =>
      obtain ⟨k1, v1⟩ := kv
      by_cases h1 : k1 = k
      · subst h1; simp [dictSet, dictKeys]
      · rw [dictContains, dictGet, if_neg h1] at h
        rw [dictSet, if_neg h1]
        simp [dictKeys]
        exact ih h

theorem dictKeys_zip_snd {α : Type} (s : Dict α) :
    (dictKeys s).zip (s.map Prod.snd) = s := by
  induction s with
  | nil => rfl
  | cons kv rest ih => simp [dictKeys] at ih ⊢; exact ih

/-! ## Claim C5: broadcast enqueues are bounded drops -/

/-- The broadcast message for a given output dict. -/
def outBroadcastMsg (outputs : Dict (Option Int)) : OutMsg :=
  { output_variables := some outputs }

/-- Claim C5, amended part.  The post-evaluation output broadcast uses a
timed put: it never blocks forever; when it reports `Full`, some outbound
queue really was at capacity (and the message was dropped there); and when
no queue is full every queue receives the output message. -/
theorem broadcast_enqueue_bounded_drop (qs : Dict (MPQueue OutMsg))
    (outputs : Dict (Option Int)) :
    (broadcastOutputs qs outputs).2 ≠ some .blockedPut ∧
    ((broadcastOutputs qs outputs).2 = some .fullRaised →
      ∃ pq ∈ qs, qFull pq.2 = true) ∧
    ((∀ pq ∈ qs, qFull pq.2 = false) →
      (broadcastOutputs qs outputs).1 =
        qs.map (fun pq =>
          (pq.1, ⟨pq.2.capacity, pq.2.items ++ [outBroadcastMsg outputs]⟩)) ∧
      (broadcastOutputs qs outputs).2 = none) := by
  induction qs with
  | nil => simp [broadcastOutputs]
  | cons pq rest ih =>
      obtain ⟨p, q⟩ := pq
      by_cases hf : qFull q = true
      · refine ⟨?_, ?_, ?_⟩
        · simp [broadcastOutputs, mpPut, hf]
        · intro _
          exact ⟨(p, q), by simp, hf⟩
        · intro hall
          exact absurd (hall (p, q) (by simp)) (by simp [hf])
      · have hf' : qFull q = false := by simpa using hf
        refine ⟨?_, ?_, ?_⟩
        · simp only [broadcastOutputs, mpPut, hf', Bool.false_eq_true, if_false]
          exact ih.1
        · simp only [broadcastOutputs, mpPut, hf', Bool.false_eq_true, if_false]
          intro h
          obtain ⟨pq', hmem, hfull⟩ := ih.2.1 h
          exact ⟨pq', by simp [hmem], hfull⟩
        · intro hall
          have hrest := ih.2.2 (fun pq hm => hall pq (by simp [hm]))
          simp only [broadcastOutputs, mpPut, hf', Bool.false_eq_true, if_false]
          simp [hrest.1, hrest.2, outBroadcastMsg]

/-- A full capacity-1 queue for the C5 witness. -/
def qsC5W : Dict (MPQueue OutMsg) :=
  [("ca", ⟨some 1, [{ output_variables := some [("y", some 1)] }]⟩)]

/-- Witness for `broadcast_enqueue_bounded_drop`: on a full capacity-1
queue the broadcast raises (and catches) `Full` rather than blocking, and
the theorem recovers that some queue was indeed full. -/
theorem broadcast_enqueue_bounded_drop_witness :
    (broadcastOutputs qsC5W [("y", some 2)]).2 = some .fullRaised ∧
    ∃ pq ∈ qsC5W, qFull pq.2 = true :=
  ⟨rfl, (broadcast_enqueue_bounded_drop qsC5W [("y", some 2)]).2.1 rfl⟩

/-! ## Claim C6: readiness is monotonic -/

theorem applyPvs_contains (store : Dict (Option Int))
    (pvs : List (String × Option Int)) (k : String) :
    dictContains (applyPvs store pvs).1 k = dictContains store k := by
  induction pvs generalizing store with
  | nil => rfl
  | cons kv rest ih =>
      obtain ⟨pv, v⟩ := kv
      by_cases h : dictContains store pv = true
      · rw [applyPvs, if_pos h, ih (dictSet store pv v)]
        exact dictContains_dictSet_of_contains store pv v h k
      · rw [applyPvs, if_neg (by simpa using h)]

theorem applyPvs_ok (store : Dict (Option Int))
    (pvs : List (String × Option Int))
    (h : ∀ kv ∈ pvs, dictContains store kv.1 = true) :
    (applyPvs store pvs).2 = true := by
  induction pvs generalizing store with
  | nil => rfl
  | cons kv rest ih =>
      obtain ⟨pv, v⟩ := kv
      have hc : dictContains store pv = true := h (pv, v) (by simp)
      rw [applyPvs, if_pos hc]
      refine ih (dictSet store pv v) ?_
      intro kv hm
      rw [dictContains_dictSet_of_contains store pv v hc]
      exact h kv (by simp [hm])

theorem mirrorPuts_unbounded (qs : Dict (MPQueue OutMsg)) (proto : String)
    (pvs : Dict (Option Int)) (ivs : List String) (store : Dict (Option Int))
    (hq : ∀ pq ∈ qs, (pq.2 : MPQueue OutMsg).capacity = none) :
    (mirrorPuts qs proto pvs (some ivs) store).2 = none ∧
    ∀ pq ∈ (mirrorPuts qs proto pvs (some ivs) store).1,
      (pq.2 : MPQueue OutMsg).capacity = none := by
  induction qs with
  | nil => simp [mirrorPuts]
  | cons pq rest ih =>
      obtain ⟨p, q⟩ := pq
      have hqq : q.capacity = none := hq (p, q) (by simp)
      have hrest : ∀ pq ∈ rest, (pq.2 : MPQueue OutMsg).capacity = none :=
        fun pq hm => hq pq (by simp [hm])
      have ihr := ih hrest
      have hnotfull : qFull q = false := by simp [qFull, hqq]
      have hside : ∀ (hd : String × Option Int) (tl : List (String × Option Int)),
          pvs = hd :: tl → (some ivs : Option (List String)) = none → False := by
        intro _ _ _ hcontra
        exact Option.noConfusion hcontra
      by_cases hp : p = proto
      · rw [mirrorPuts, if_pos hp]
        · refine ⟨ihr.1, ?_⟩
          intro pq hm
          rcases List.mem_cons.mp hm with hm | hm
          · subst hm; exact hqq
          · exact ihr.2 pq hm
        · exact hside
      · rw [mirrorPuts, if_neg hp]
        · cases pvs with
          | nil =>
              simp only [mpPut, hnotfull, Bool.false_eq_true, if_false]
              refine ⟨ihr.1, ?_⟩
              intro pq hm
              rcases List.mem_cons.mp hm with hm | hm
              · subst hm; exact hqq
              · exact ihr.2 pq hm
          | cons kv rest' =>
              simp only [mpPut, hnotfull, Bool.false_eq_true, if_false]
              refine ⟨ihr.1, ?_⟩
              intro pq hm
              rcases List.mem_cons.mp hm with hm | hm
              · subst hm; exact hqq
              · exact ihr.2 pq hm
        · exact hside

theorem broadcastOutputs_unbounded (qs : Dict (MPQueue OutMsg))
    (outputs : Dict (Option Int))
    (hq : ∀ pq ∈ qs, (pq.2 : MPQueue OutMsg).capacity = none) :
    (broadcastOutputs qs outputs).2 = none ∧
    ∀ pq ∈ (broadcastOutputs qs outputs).1,
      (pq.2 : MPQueue OutMsg).capacity = none := by
  induction qs with
  | nil => simp [broadcastOutputs]
  | cons pq rest ih =>
      obtain ⟨p, q⟩ := pq
      have hqq : q.capacity = none := hq (p, q) (by simp)
      have hrest : ∀ pq ∈ rest, (pq.2 : MPQueue OutMsg).capacity = none :=
        fun pq hm => hq pq (by simp [hm])
      have ihr := ih hrest
      have hnotfull : qFull q = false := by simp [qFull, hqq]
      rw [broadcastOutputs]
      simp only [mpPut, hnotfull, Bool.false_eq_true, if_false]
      refine ⟨ihr.1, ?_⟩
      intro pq hm
      rcases List.mem_cons.mp hm with hm | hm
      · subst hm; exact hqq
      · exact ihr.2 pq hm

/-- One ready dispatcher iteration: with the unbounded queues the server
actually constructs, a total model, and a well-formed message, the
iteration completes, `model.evaluate` is invoked, the readiness flag stays
set, and the store keys and queue capacities are preserved. -/
theorem run_comm_step_ready
    (model : Dict (Option Int) → Except Unit (Dict (Option Int)))
    (st : CommState) (msg : InMsg)
    (hq : ∀ pq ∈ st.out_queues, (pq.2 : MPQueue OutMsg).capacity = none)
    (hm : ∀ s, ∃ o, model s = Except.ok o)
    (hpvs : msg.pvs.isSome = true)
    (hiv : msg.input_variables.isSome = true)
    (hkeys : ∀ kv ∈ msg.pvs.getD [], dictContains st.store kv.1 = true)
    (hinit : st.inputs_initialized = true) :
    (Server.run_comm_step model st msg).outcome = .ok ∧
    (Server.run_comm_step model st msg).evaluated = true ∧
    (Server.run_comm_step model st msg).state.inputs_initialized = true ∧
    (∀ k, dictContains (Server.run_comm_step model st msg).state.store k =
      dictContains st.store k) ∧
    (∀ pq ∈ (Server.run_comm_step model st msg).state.out_queues,
      (pq.2 : MPQueue OutMsg).capacity = none) := by
  obtain ⟨pvs, hpv⟩ := Option.isSome_iff_exists.mp hpvs
  obtain ⟨ivs, hivs⟩ := Option.isSome_iff_exists.mp hiv
  rcases happ : applyPvs st.store pvs with ⟨store', okF⟩
  have hok : okF = true := by
    have h1 := applyPvs_ok st.store pvs (by rw [hpv] at hkeys; simpa using hkeys)
    rw [happ] at h1
    exact h1
  subst hok
  have hcont : ∀ k, dictContains store' k = dictContains st.store k := by
    intro k
    have h1 := applyPvs_contains st.store pvs k
    rw [happ] at h1
    exact h1
  have hmirL := mirrorPuts_unbounded st.out_queues msg.protocol pvs ivs store' hq
  rcases hmr : mirrorPuts st.out_queues msg.protocol pvs (some ivs) store' with ⟨qs1, f1⟩
  rw [hmr] at hmirL
  obtain ⟨hf1, hq1⟩ := hmirL
  subst hf1
  have hflag : (if store'.any (fun kv => kv.2.isNone) then st.inputs_initialized
      else true) = true := by
    split <;> simp [hinit]
  obtain ⟨outputs, hmo⟩ := hm store'
  have hbrL := broadcastOutputs_unbounded qs1 outputs hq1
  rcases hbr : broadcastOutputs qs1 outputs with ⟨qs2, f2⟩
  rw [hbr] at hbrL
  obtain ⟨hf2, hq2⟩ := hbrL
  subst hf2
  simp only [Server.run_comm_step, hpv, hivs, happ, hmr, hflag, if_true, hmo, hbr]
  exact ⟨trivial, trivial, trivial, hcont, hq2⟩

/-- Claim C6.  Readiness is monotonic: starting from any dispatcher state
in which the readiness flag is set (i.e. after some batch made every input
non-`None`), every subsequent well-formed batch is fully processed and
triggers a model evaluation, even when a batch writes `None` into an input
or omits variables — the flag is never reset. -/
theorem readiness_monotonic
    (model : Dict (Option Int) → Except Unit (Dict (Option Int)))
    (st : CommState) (msgs : List InMsg)
    (hq : ∀ pq ∈ st.out_queues, (pq.2 : MPQueue OutMsg).capacity = none)
    (hm : ∀ s, ∃ o, model s = Except.ok o)
    (hw : ∀ m ∈ msgs, m.pvs.isSome = true ∧ m.input_variables.isSome = true ∧
      ∀ kv ∈ m.pvs.getD [], dictContains st.store kv.1 = true)
    (hinit : st.inputs_initialized = true) :
    (Server.run_comm_loop model st msgs).1.inputs_initialized = true ∧
    (Server.run_comm_loop model st msgs).2.length = msgs.length ∧
    ∀ b ∈ (Server.run_comm_loop model st msgs).2, b = true := by
  induction msgs generalizing st with
  | nil =>
      refine ⟨hinit, rfl, ?_⟩
      intro b hb
      simp [Server.run_comm_loop] at hb
  | cons m rest ih =>
      have hwm := hw m (by simp)
      have hstep := run_comm_step_ready model st m hq hm hwm.1 hwm.2.1 hwm.2.2 hinit
      obtain ⟨hout, heval, hinit', hcont', hq'⟩ := hstep
      have hw' : ∀ m' ∈ rest, m'.pvs.isSome = true ∧
          m'.input_variables.isSome = true ∧
          ∀ kv ∈ m'.pvs.getD [],
            dictContains (Server.run_comm_step model st m).state.store kv.1 = true := by
        intro m' hm'
        have h3 := hw m' (by simp [hm'])
        refine ⟨h3.1, h3.2.1, ?_⟩
        intro kv hkv
        rw [hcont' kv.1]
        exact h3.2.2 kv hkv
      have ihr := ih (Server.run_comm_step model st m).state hq' hw' hinit'
      rw [Server.run_comm_loop, hout]
      refine ⟨ihr.1, ?_, ?_⟩
      · simp [ihr.2.1]
      · intro b hb
        rcases List.mem_cons.mp hb with hb | hb
        · rw [hb, heval]
        · exact ihr.2.2 b hb

/-- Two-protocol dispatcher state with the readiness flag already set, for
the C6 witness. -/
def commC6 : CommState :=
  { store := [("x", some 1)], inputs_initialized := true, running := false,
    out_queues := [("ca", MPQueue.unbounded), ("pva", MPQueue.unbounded)] }

/-- Two batches: the first writes `None` back into `x` (the readiness
condition would no longer hold), the second a normal write. -/
def msgsC6 : List InMsg :=
  [{ protocol := "pva", pvs := some [("x", none)], input_variables := some ["x"] },
   { protocol := "ca", pvs := some [("x", some 5)], input_variables := some ["x"] }]

/-- Witness for `readiness_monotonic`: on the concrete two-batch run the
hypotheses hold and every batch triggers an evaluation. -/
theorem readiness_monotonic_witness :
    ((∀ pq ∈ commC6.out_queues, (pq.2 : MPQueue OutMsg).capacity = none) ∧
      commC6.inputs_initialized = true ∧
      ∀ m ∈ msgsC6, m.pvs.isSome = true ∧ m.input_variables.isSome = true ∧
        ∀ kv ∈ m.pvs.getD [], dictContains commC6.store kv.1 = true) ∧
    (Server.run_comm_loop okModel commC6 msgsC6).1.inputs_initialized = true ∧
    (Server.run_comm_loop okModel commC6 msgsC6).2.length = msgsC6.length ∧
    ∀ b ∈ (Server.run_comm_loop okModel commC6 msgsC6).2, b = true :=
  ⟨⟨by decide, by decide, by decide⟩,
    readiness_monotonic okModel commC6 msgsC6 (by decide)
      (fun s => ⟨s, rfl⟩) (by decide) (by decide)⟩

/-! ## Claim C7: structure publishes always carry every declared field -/

/-- `flds` is a full copy of parent `p`'s structure: same field set as the
setup-time structure `s0`, and identical values on every field not named in
the current batch. -/
def StructProp (st : PVAState) (names : List String) (p : String)
    (flds : Dict NTValue) : Prop :=
  ∃ s0, dictGet st.structures p = some s0 ∧ dictKeys flds = dictKeys s0 ∧
    ∀ g, g ∉ names → dictGet flds g = dictGet s0 g

/-- Invariant on the loop-carried `value`: whenever it holds a structure
value, that structure is a full copy in the sense of `StructProp`. -/
def carriedOK (st : PVAState) (names : List String) : Option NTValue → Prop
  | some (.structV p ks vs) =>
      ∃ flds, ks.zip vs = flds ∧ ks = dictKeys flds ∧ StructProp st names p flds
  | _ => True

/-- Every published structure value carries exactly the declared fields and
retains cached values for fields outside the batch. -/
def eventStructOK (st : PVAState) (names : List String) : PostEvent → Prop
  | .localPost _ (.structV p ks vs) =>
      ∃ flds, ks.zip vs = flds ∧ ks = dictKeys flds ∧ StructProp st names p flds
  | .remoteWrite _ (.structV p ks vs) =>
      ∃ flds, ks.zip vs = flds ∧ ks = dictKeys flds ∧ StructProp st names p flds
  | _ => True

theorem payload_not_struct (v : PyVariable) (r : NTValue)
    (h : PVAServer.payload v = .ok r) :
    ∀ p ks vs, r ≠ NTValue.structV p ks vs := by
  intro p ks vs hr
  subst hr
  unfold PVAServer.payload at h
  split at h
  · cases hv : v.value <;> rw [hv] at h <;> simp at h
  · split at h
    · split at h
      · simp at h
      · cases hv : v.value <;> rw [hv] at h <;> simp at h
    · simp at h

theorem eventOK_of_carried (st : PVAState) (names : List String) (val : NTValue)
    (pvn : String) (h : carriedOK st names (some val)) :
    eventStructOK st names (.localPost pvn val) ∧
    eventStructOK st names (.remoteWrite pvn val) := by
  cases val <;> simp only [carriedOK, eventStructOK] at h ⊢ <;> exact ⟨h, h⟩

theorem update_pvs_go_struct_ok (st : PVAState) (names : List String)
    (hpf : ∀ fp ∈ st.field_to_parent,
      Option.all (fun s => dictContains s fp.1) (dictGet st.structures fp.2) = true) :
    ∀ (vs : List PyVariable) (structs : Dict (Dict NTValue))
      (carried : Option NTValue),
      (∀ v ∈ vs, v.name ∈ names) →
      (∀ p s, dictGet structs p = some s → StructProp st names p s) →
      carriedOK st names carried →
      ∀ ev ∈ (PVAServer.update_pvs_go st vs structs carried).2.1,
        eventStructOK st names ev := by
  intro vs
  induction vs with
  | nil =>
      intro structs carried _ _ _ ev hev
      simp [PVAServer.update_pvs_go] at hev
  | cons v rest ih =>
      intro structs carried hvs hinv hcar ev hev
      have hvname : v.name ∈ names := hvs v (by simp)
      have hrest : ∀ v' ∈ rest, v'.name ∈ names :=
        fun v' h => hvs v' (List.mem_cons_of_mem _ h)
      simp only [PVAServer.update_pvs_go] at hev
      rcases h2 : (if dictContains st.input_variables v.name && v.is_constant
          then (Except.ok carried : Except PvaStepError (Option NTValue))
          else (PVAServer.payload v).map some) with e | carried'
      · rw [h2] at hev
        simp at hev
      · rw [h2] at hev
        have hcar' : carriedOK st names carried' := by
          have hEq := h2
          by_cases hc : (dictContains st.input_variables v.name && v.is_constant) = true
          · rw [if_pos hc] at hEq
            obtain rfl : carried = carried' := by injection hEq
            exact hcar
          · rw [if_neg hc] at hEq
            cases hp : PVAServer.payload v with
            | error e => rw [hp] at hEq; simp [Except.map] at hEq
            | ok pl =>
                rw [hp] at hEq
                simp only [Except.map] at hEq
                obtain rfl : some pl = carried' := by injection hEq
                cases hpl : pl with
                | structV p0 ks0 vs0 =>
                    exact absurd hpl (payload_not_struct v pl hp p0 ks0 vs0)
                | scalar w => simp [carriedOK]
                | image a b c d e => simp [carriedOK]
                | ntarr a => simp [carriedOK]
        cases hpar : dictGet st.field_to_parent v.name with
        | none =>
            simp only [hpar] at hev
            cases hvp : dictGet st.varname_to_pvname v.name with
            | none => simp only [hvp] at hev; simp at hev
            | some pvname =>
                simp only [hvp] at hev
                cases hpr : dictGet st.providers pvname with
                | none => simp only [hpr] at hev; simp at hev
                | some isLocal =>
                    simp only [hpr] at hev
                    cases carried' with
                    | none => simp at hev
                    | some val =>
                        cases isLocal with
                        | false =>
                            simp only [Bool.false_eq_true, if_false] at hev
                            rcases List.mem_cons.mp hev with hev | hev
                            · subst hev
                              exact (eventOK_of_carried st names val pvname hcar').2
                            · exact ih structs (some val) hrest hinv hcar' ev hev
                        | true =>
                            simp only [if_true] at hev
                            rcases List.mem_cons.mp hev with hev | hev
                            · subst hev
                              exact (eventOK_of_carried st names val pvname hcar').1
                            · exact ih structs (some val) hrest hinv hcar' ev hev
        | some p =>
            simp only [hpar] at hev
            cases carried' with
            | none => simp at hev
            | some val =>
                cases hst : dictGet structs p with
                | none => simp only [hst] at hev; simp at hev
                | some s =>
                    simp only [hst] at hev
                    cases hsp : dictGet st.structure_specs p with
                    | none => simp only [hsp] at hev; simp at hev
                    | some spec =>
                        simp only [hsp] at hev
                        cases hvp : dictGet st.varname_to_pvname p with
                        | none => simp only [hvp] at hev; simp at hev
                        | some pvname =>
                            simp only [hvp] at hev
                            cases hpr : dictGet st.providers pvname with
                            | none => simp only [hpr] at hev; simp at hev
                            | some isLocal =>
                                simp only [hpr] at hev
                                obtain ⟨s0, hs0, hkeys, hvals⟩ := hinv p s hst
                                have hmemfp : (v.name, p) ∈ st.field_to_parent :=
                                  dictGet_mem _ _ _ hpar
                                have hall := hpf _ hmemfp
                                rw [hs0] at hall
                                have hc0 : dictContains s0 v.name = true := by
                                  simpa [Option.all] using hall
                                have hcs : dictContains s v.name = true := by
                                  rw [← mem_dictKeys_iff, hkeys, mem_dictKeys_iff]
                                  exact hc0
                                have hkeys' :
                                    dictKeys (dictSet s v.name val) = dictKeys s0 := by
                                  rw [dictKeys_dictSet_of_contains s v.name val hcs,
                                    hkeys]
                                have hvals' : ∀ g, g ∉ names →
                                    dictGet (dictSet s v.name val) g = dictGet s0 g := by
                                  intro g hg
                                  have hgne : g ≠ v.name := fun hh => hg (hh ▸ hvname)
                                  rw [dictGet_dictSet_ne s v.name g val hgne]
                                  exact hvals g hg
                                have hsp' :
                                    StructProp st names p (dictSet s v.name val) :=
                                  ⟨s0, hs0, hkeys', hvals'⟩
                                have hpostOK : carriedOK st names
                                    (some (NTValue.ofStruct p (dictSet s v.name val))) := by
                                  simp only [NTValue.ofStruct, carriedOK]
                                  exact ⟨dictSet s v.name val, dictKeys_zip_snd _, rfl, hsp'⟩
                                have hinv' : ∀ p' s₁,
                                    dictGet (dictSet structs p (dictSet s v.name val)) p' =
                                      some s₁ → StructProp st names p' s₁ := by
                                  intro p' s₁ h₁
                                  by_cases hpp : p' = p
                                  · subst hpp
                                    rw [dictGet_dictSet_self] at h₁
                                    obtain rfl : dictSet s v.name val = s₁ := by
                                      injection h₁
                                    exact hsp'
                                  · rw [dictGet_dictSet_ne structs p p' _ hpp] at h₁
                                    exact hinv p' s₁ h₁
                                cases isLocal with
                                | false =>
                                    simp only [Bool.false_eq_true, if_false] at hev
                                    rcases List.mem_cons.mp hev with hev | hev
                                    · subst hev
                                      simp only [NTValue.ofStruct, eventStructOK]
                                      exact ⟨dictSet s v.name val, dictKeys_zip_snd _,
                                        rfl, hsp'⟩
                                    · exact ih _ _ hrest hinv' hpostOK ev hev
                                | true =>
                                    simp only [if_true] at hev
                                    rcases List.mem_cons.mp hev with hev | hev
                                    · subst hev
                                      simp only [NTValue.ofStruct, eventStructOK]
                                      exact ⟨dictSet s v.name val, dictKeys_zip_snd _,
                                        rfl, hsp'⟩
                                    · exact ih _ _ hrest hinv' hpostOK ev hev

/-- Claim C7.  Every structure publish performed by `update_pvs` — whether a
local post or a remote write under the parent PV — carries the WHOLE
structure: its field set equals the setup-time declared field set of the
parent, and every field not named in the current batch retains its last
cached value. -/
theorem update_pvs_structure_posts_whole (st : PVAState)
    (ivs ovs : Dict PyVariable)
    (hpf : ∀ fp ∈ st.field_to_parent,
      Option.all (fun s => dictContains s fp.1) (dictGet st.structures fp.2) = true) :
    ∀ ev ∈ (PVAServer.update_pvs st ivs ovs).events,
      eventStructOK st (batchNames ivs ovs) ev := by
  intro ev hev
  have hnames : ∀ v ∈ (dictUpdate ivs ovs).map Prod.snd,
      v.name ∈ batchNames ivs ovs := by
    intro v hv
    obtain ⟨kv, hkv, rfl⟩ := List.mem_map.mp hv
    exact List.mem_map.mpr ⟨kv, hkv, rfl⟩
  have hinv : ∀ p s, dictGet st.structures p = some s →
      StructProp st (batchNames ivs ovs) p s :=
    fun p s h => ⟨s, h, rfl, fun _ _ => rfl⟩
  exact update_pvs_go_struct_ok st (batchNames ivs ovs) hpf
    ((dictUpdate ivs ovs).map Prod.snd) st.structures none hnames hinv trivial ev
    (by simpa [PVAServer.update_pvs] using hev)

def f1Var : PyVariable := { name := "f1", variable_type := "scalar", value := .num 9 }

/-- PVA adapter serving a two-field structure `par = (f1, f2)`, for the C7
witness. -/
def pvaStC7 : PVAState :=
  { input_variables :=
      [("f1", { name := "f1", variable_type := "scalar", value := .num 1 })]
    output_variables :=
      [("f2", { name := "f2", variable_type := "scalar", value := .num 2 })]
    cached_values := []
    structures := [("par", [("f1", .scalar (.num 1)), ("f2", .scalar (.num 2))])]
    structure_specs := [("par", ["f1", "f2"])]
    field_to_parent := [("f1", "par"), ("f2", "par")]
    pvname_to_varname := [("pv:par", "par")]
    varname_to_pvname := [("par", "pv:par")]
    providers := [("pv:par", true)]
    in_queue := MPQueue.unbounded
    out_queue := MPQueue.unbounded
    running := false }

/-- Witness for `update_pvs_structure_posts_whole`: the setup coherence
hypothesis holds on the concrete structure-serving adapter, and a batch
updating only `f1` still publishes full structures. -/
theorem update_pvs_structure_posts_whole_witness :
    (∀ fp ∈ pvaStC7.field_to_parent,
      Option.all (fun s => dictContains s fp.1)
        (dictGet pvaStC7.structures fp.2) = true) ∧
    ∀ ev ∈ (PVAServer.update_pvs pvaStC7 [("f1", f1Var)] []).events,
      eventStructOK pvaStC7 (batchNames [("f1", f1Var)] []) ev :=
  ⟨by decide,
    update_pvs_structure_posts_whole pvaStC7 [("f1", f1Var)] [] (by decide)⟩
